import Mathlib

/-!
# Verification of the query cache core (`src/query.tsx`)

Shallow embedding of the cache/subscription engine:

* `QueryClient.getQuery` — the registry resolving a request key (hashed with
  `JSON.stringify`) to a cached query, creating one on first use;
* `createQuery` — the per-request cache record with its state machine
  (`fetch`, `setState`, `subsribe` and the unsubscribe closure).

JavaScript values appearing in request keys are modelled by `JSValue`;
`JSON.stringify` is modelled by `serialize`/`stringifyKey`.  The single
suspension point of an in-flight fetch is modelled by an event trace over a
query (`Ev`, `stepQ`, `run`): a `fetch` event is a synchronous call to
`query.fetch()`, a `complete r` event is the resumption of the in-flight
asynchronous operation with result `r` (the `try/catch/finally` body after
`await queryFn()`).
-/

set_option autoImplicit false

namespace TQScratch

/-- A JavaScript value as it can appear inside a request key (`queryKey`).
`func` carries an identity tag (closures compare by reference).  `bigint`
models the values on which `JSON.stringify` throws a `TypeError`
(`BigInt` values; cyclic object graphs, the other throwing case, are not
representable in an inductive type and are modelled by the same
constructor). -/
inductive JSValue where
  | null : JSValue
  | undefined : JSValue
  | bool : Bool → JSValue
  | num : Int → JSValue
  | str : String → JSValue
  | func : Nat → JSValue
  | bigint : Int → JSValue
  | arr : List JSValue → JSValue
  | obj : List (String × JSValue) → JSValue

/-- JSON string quoting: wrap in double quotes, escaping `"` and `\`
(control-character escapes are irrelevant to the keys considered here). -/
def jsQuote (s : String) : String :=
  "\"" ++ String.join (s.toList.map fun c =>
    if c = '"' then "\\\"" else if c = '\\' then "\\\\" else String.singleton c) ++ "\""

mutual

/-- `JSON.stringify` on a single value.  `Except.error ()` models a thrown
`TypeError` (non-serializable value); `Except.ok none` models the cases where
`JSON.stringify` yields no JSON text for the value (`undefined` and
functions), which become `"null"` inside arrays and are omitted as object
members; `Except.ok (some s)` is the serialized text. -/
def serialize : JSValue → Except Unit (Option String)
  | JSValue.null => Except.ok (some "null")
  | JSValue.undefined => Except.ok none
  | JSValue.bool b => Except.ok (some (if b then "true" else "false"))
  | JSValue.num n => Except.ok (some (toString n))
  | JSValue.str s => Except.ok (some (jsQuote s))
  | JSValue.func _ => Except.ok none
  | JSValue.bigint _ => Except.error ()
  | JSValue.arr xs =>
    match serializeElems xs with
    | Except.error e => Except.error e
    | Except.ok parts => Except.ok (some ("[" ++ String.intercalate "," parts ++ "]"))
  | JSValue.obj fs =>
    match serializeFields fs with
    | Except.error e => Except.error e
    | Except.ok parts => Except.ok (some ("\x7b" ++ String.intercalate "," parts ++ "\x7d"))

/-- Array elements: a value with no JSON text serializes as `"null"`. -/
def serializeElems : List JSValue → Except Unit (List String)
  | [] => Except.ok []
  | x :: xs =>
    match serialize x with
    | Except.error e => Except.error e
    | Except.ok o =>
      match serializeElems xs with
      | Except.error e => Except.error e
      | Except.ok rest => Except.ok ((o.getD "null") :: rest)

/-- Object members: a member whose value has no JSON text is omitted. -/
def serializeFields : List (String × JSValue) → Except Unit (List String)
  | [] => Except.ok []
  | (k, v) :: fs =>
    match serialize v with
    | Except.error e => Except.error e
    | Except.ok o =>
      match serializeFields fs with
      | Except.error e => Except.error e
      | Except.ok rest =>
        Except.ok (match o with
          | some s => (jsQuote k ++ ":" ++ s) :: rest
          | none => rest)

end

/-- `JSON.stringify(options.queryKey)` (`query.tsx:18` and `query.tsx:101`).
The `queryKey` is typed `unknown[]` in the source, so the top level is always
an array; `none` models the synchronous `TypeError` thrown on a
non-serializable key.  (An array never serializes to "no text", so the
`Except.ok none` case of `serialize` cannot occur here.) -/
def stringifyKey (key : List JSValue) : Option String :=
  match serialize (JSValue.arr key) with
  | Except.error _ => none
  | Except.ok o => o

/-- The `status` field of a query state (`query.tsx:43`). -/
inductive Status where
  | loading : Status
  | error : Status
  | success : Status
  deriving DecidableEq, Repr

/-- `QueryState` (`query.tsx:42`): `data?` and `error?` are optional fields,
modelled with `Option`.  `D` is the result type `TData`, `E` the type of
thrown/rejected values. -/
structure QueryState (D E : Type) where
  status : Status
  isFetching : Bool
  data : Option D
  error : Option E
  deriving DecidableEq, Repr

/-- A cached query (`query.tsx:51`, built by `createQuery`, `query.tsx:95`).
`fnId` is the identity of the stored `queryFn` closure (closures compare by
reference).  `promise` records whether an asynchronous fetch operation is in
flight (`query.tsx:54`: `promise: null | Promise<void>`).  Subscribers are
observer identities (observers compare by reference in
`sub !== subscriber`). -/
structure Query (D E : Type) where
  queryKey : List JSValue
  queryHash : String
  fnId : Nat
  promise : Bool
  state : QueryState D E
  subscribers : List Nat

/-- The initial state of a freshly created query (`query.tsx:104`). -/
def initialState (D E : Type) : QueryState D E :=
  { status := Status.loading, isFetching := true, data := none, error := none }

/-- `createQuery` (`query.tsx:95`): builds the query record, computing its
hash with `JSON.stringify(queryKey)` (`query.tsx:101`); `none` models the
`TypeError` thrown on a non-serializable key. -/
def createQuery (D E : Type) (key : List JSValue) (fnId : Nat) : Option (Query D E) :=
  match stringifyKey key with
  | none => none
  | some h =>
    some { queryKey := key, queryHash := h, fnId := fnId, promise := false,
           state := initialState D E, subscribers := [] }

variable {D E : Type}

/-- `setState` (`query.tsx:145`): replaces `state` with `updater state`, then
notifies every current subscriber in list order (`forEach`).  The second
component is the sequence of `notify` invocations, in order. -/
def setState (updater : QueryState D E → QueryState D E) (q : Query D E) :
    Query D E × List Nat :=
  let q' := { q with state := updater q.state }
  (q', q'.subscribers)

/-- `subsribe` (`query.tsx:149`, the source's spelling): pushes the
subscriber onto `subscribers`. -/
def subsribe (sub : Nat) (q : Query D E) : Query D E :=
  { q with subscribers := q.subscribers ++ [sub] }

/-- The unsubscribe closure returned by `subsribe` (`query.tsx:152`):
removes that exact subscriber by reference filtering. -/
def unsubscribe (sub : Nat) (q : Query D E) : Query D E :=
  { q with subscribers := q.subscribers.filter (fun s => s != sub) }

/-- The synchronous part of `query.fetch()` (`query.tsx:110`): if a promise
is already in flight, nothing happens and the caller gets the existing
promise back; otherwise the asynchronous operation starts — its synchronous
prefix runs `setState` marking `isFetching := true` and clearing `error`
(`query.tsx:114`), `queryFn` is invoked, and the operation's promise is
recorded.  The boolean result is `true` iff `queryFn` was invoked (a new
operation started). -/
def fetchCall (q : Query D E) : Query D E × Bool :=
  if q.promise then (q, false)
  else
    let q1 := (setState (fun old => { old with isFetching := true, error := none }) q).1
    ({ q1 with promise := true }, true)

/-- The remainder of the in-flight operation once `await queryFn()` settles
with result `r` (`query.tsx:120`): the `try/catch/finally` body.  On success
the `try` branch stores the data (`query.tsx:122`); on rejection the `catch`
branch stores the error (`query.tsx:128`); the `finally` branch clears
`query.promise` and ends `isFetching` (`query.tsx:133`).  An `Except.error`
result of `fetchBody` would be an uncaught rejection of the operation's
promise; the dead rethrow branch mirrors that the `finally` clause would
re-propagate an exception escaping `try/catch` (the `catch` handler returns
normally, so it is unreachable). -/
def fetchBody (r : Except E D) (q : Query D E) : Except E (Query D E) :=
  let afterTry : Except E (Query D E) :=
    match r with
    | Except.ok d =>
      Except.ok (setState (fun old => { old with status := Status.success, data := some d }) q).1
    | Except.error e =>
      Except.ok (setState (fun old => { old with status := Status.error, error := some e }) q).1
  match afterTry with
  | Except.ok q1 =>
    Except.ok (setState (fun old => { old with isFetching := false }) { q1 with promise := false }).1
  | Except.error e => Except.error e

/-- The state of the query after the in-flight operation completes with
result `r` (the resolved value of `fetchBody`). -/
def completeOp (r : Except E D) (q : Query D E) : Query D E :=
  match fetchBody r q with
  | Except.ok q' => q'
  | Except.error _ => q

/-- Events of the single-threaded cooperative model: between suspension
points a caller may call `fetch()`, subscribe or unsubscribe, and an
in-flight operation may resume with its result. -/
inductive Ev (D E : Type) where
  | fetch : Ev D E
  | complete : Except E D → Ev D E
  | subscribe : Nat → Ev D E
  | unsubscribe : Nat → Ev D E

/-- One interleaving step.  A `complete` event is the resumption of the
in-flight operation, so it only applies while one is in flight. -/
def stepQ (q : Query D E) (ev : Ev D E) : Query D E :=
  match ev with
  | Ev.fetch => (fetchCall q).1
  | Ev.complete r => if q.promise then completeOp r q else q
  | Ev.subscribe s => subsribe s q
  | Ev.unsubscribe s => unsubscribe s q

/-- Run an event trace. -/
def run (q : Query D E) (evs : List (Ev D E)) : Query D E :=
  evs.foldl stepQ q

/-- One interleaving step, also counting the `queryFn` invocations
(operations started) and the operation completions. -/
def stepC (acc : Query D E × Nat × Nat) (ev : Ev D E) : Query D E × Nat × Nat :=
  match ev with
  | Ev.fetch =>
    let p := fetchCall acc.1
    (p.1, acc.2.1 + (if p.2 then 1 else 0), acc.2.2)
  | Ev.complete r =>
    if acc.1.promise then (completeOp r acc.1, acc.2.1, acc.2.2 + 1) else acc
  | Ev.subscribe s => (subsribe s acc.1, acc.2)
  | Ev.unsubscribe s => (unsubscribe s acc.1, acc.2)

/-- Run an event trace, also counting the `queryFn` invocations (operations
started) and the operation completions along the way. -/
def runC (acc : Query D E × Nat × Nat) (evs : List (Ev D E)) : Query D E × Nat × Nat :=
  evs.foldl stepC acc

/-- The registry (`query.tsx:10`): `QueryClient` owns the list of cached
queries. -/
structure QueryClient (D E : Type) where
  queries : List (Query D E)

/-- `QueryOptions` (`query.tsx:62`): a request key and a fetch function
(identified by the closure's identity). -/
structure QueryOptions where
  queryKey : List JSValue
  fnId : Nat

/-- `QueryClient.getQuery` (`query.tsx:17`): hash the key with
`JSON.stringify` (a thrown `TypeError` propagates synchronously: `none`,
before any query is created or stored), look the hash up among the cached
queries, and only on a miss create and push a new query. -/
def getQuery (D E : Type) (c : QueryClient D E) (o : QueryOptions) :
    Option (Query D E × QueryClient D E) :=
  match stringifyKey o.queryKey with
  | none => none
  | some h =>
    match c.queries.find? (fun d => d.queryHash == h) with
    | some q => some (q, c)
    | none =>
      match createQuery D E o.queryKey o.fnId with
      | none => none
      | some q => some (q, { queries := c.queries ++ [q] })

end TQScratch

namespace TQScratch

/-! ## Shared helper lemmas -/

variable {D E : Type}

theorem createQuery_eq_some {key : List JSValue} {fnId : Nat} {q : Query D E}
    (h : createQuery D E key fnId = some q) :
    q.promise = false ∧ q.state = initialState D E ∧ q.subscribers = [] ∧
    stringifyKey key = some q.queryHash ∧ q.queryKey = key ∧ q.fnId = fnId := by
  unfold createQuery at h
  cases hs : stringifyKey key with
  | none => rw [hs] at h; exact absurd h (by simp)
  | some s =>
    rw [hs] at h
    cases h
    exact ⟨rfl, rfl, rfl, rfl, rfl, rfl⟩

theorem completeOp_promise (r : Except E D) (q : Query D E) :
    (completeOp r q).promise = false := by
  cases r <;> rfl

theorem subsribe_promise (s : Nat) (q : Query D E) : (subsribe s q).promise = q.promise := rfl

theorem unsubscribe_promise (s : Nat) (q : Query D E) :
    (unsubscribe s q).promise = q.promise := rfl

theorem fetchCall_of_inflight {q : Query D E} (h : q.promise = true) :
    fetchCall q = (q, false) := by
  simp [fetchCall, h]

theorem fetchCall_of_idle {q : Query D E} (h : q.promise = false) :
    (fetchCall q).2 = true ∧ (fetchCall q).1.promise = true ∧
    (fetchCall q).1.state =
      { q.state with isFetching := true, error := none } := by
  simp [fetchCall, h, setState]

/-! ## C9 -/

/-- C9: invoking the unsubscribe capability twice leaves the subscriber list
(and hence all later broadcast behaviour, which is a function of the query)
exactly as invoking it once, and unsubscribing an observer that is not in
the list is a no-op. -/
theorem unsubscribe_idempotent (q : Query D E) (o : Nat) :
    unsubscribe o (unsubscribe o q) = unsubscribe o q ∧
    (o ∉ q.subscribers → unsubscribe o q = q) := by
  obtain ⟨k, hsh, f, p, st, subs⟩ := q
  constructor
  · simp only [unsubscribe]
    congr 1
    exact List.filter_eq_self.2 fun a ha => (List.mem_filter.1 ha).2
  · intro ho
    simp only [unsubscribe]
    congr 1
    refine List.filter_eq_self.2 fun a ha => ?_
    simp only [bne_iff_ne, ne_eq]
    rintro rfl
    exact ho ha

/-- A concrete query used to instantiate hypotheses of the theorems. -/
def sampleQuery : Query Nat Nat :=
  { queryKey := [], queryHash := "[]", fnId := 0, promise := false,
    state := initialState Nat Nat, subscribers := [1, 2] }

theorem unsubscribe_idempotent_witness :
    (3 : Nat) ∉ sampleQuery.subscribers ∧ unsubscribe 3 sampleQuery = sampleQuery :=
  ⟨by decide, (unsubscribe_idempotent sampleQuery 3).2 (by decide)⟩

end TQScratch

namespace TQScratch

variable {D E : Type}

/-! ## C8 -/

/-- C8: a failing fetch on a query that holds data from a prior success
stores the failure (`status := error`, `error := some e`) but leaves the
`data` field untouched: the updater of the `catch` branch spreads the old
state and writes only `status` and `error`, and the `finally` updater writes
only `isFetching`. -/
theorem fetch_failure_preserves_data (q : Query D E) (e : E) (d : D)
    (hd : q.state.data = some d) :
    (completeOp (Except.error e) q).state.data = some d ∧
    (completeOp (Except.error e) q).state.status = Status.error ∧
    (completeOp (Except.error e) q).state.error = some e := by
  simp [completeOp, fetchBody, setState, hd]

/-- A concrete query holding data from a prior successful fetch, with a
fetch in flight. -/
def sampleLoaded : Query Nat Nat :=
  { queryKey := [], queryHash := "[]", fnId := 0, promise := true,
    state := { status := Status.success, isFetching := true, data := some 42, error := none },
    subscribers := [] }

theorem fetch_failure_preserves_data_witness :
    sampleLoaded.state.data = some 42 ∧
    (completeOp (Except.error 5) sampleLoaded).state.data = some 42 :=
  ⟨rfl, (fetch_failure_preserves_data sampleLoaded 5 42 rfl).1⟩

/-! ## C5 -/

/-- C5: when the in-flight fetch operation completes — whichever way
`queryFn` settled — the query's status is `success` or `error` (never
`loading`), `isFetching` is `false`, and the in-flight promise handle is
cleared. -/
theorem fetch_completion_state (q : Query D E) (r : Except E D) (h : q.promise = true) :
    (stepQ q (Ev.complete r)).state.status ≠ Status.loading ∧
    (stepQ q (Ev.complete r)).state.isFetching = false ∧
    (stepQ q (Ev.complete r)).promise = false := by
  cases r <;> simp [stepQ, h, completeOp, fetchBody, setState]

theorem fetch_completion_state_witness :
    sampleLoaded.promise = true ∧
    (stepQ sampleLoaded (Ev.complete (Except.ok 7))).state.isFetching = false :=
  ⟨rfl, (fetch_completion_state sampleLoaded (Except.ok 7) rfl).2.1⟩

/-! ## C6 -/

/-- C6: the settlement of the in-flight operation never rejects: for every
outcome of `queryFn` the `try/catch/finally` body resolves normally
(`fetchBody` is `Except.ok`), and a rejection of `queryFn` is caught by the
`catch` branch and stored as `status := error`, `error := some e` — it never
escapes the query. -/
theorem fetch_failure_contained (r : Except E D) (q : Query D E) :
    (∃ q₁, fetchBody r q = Except.ok q₁) ∧
    (∀ e, r = Except.error e →
      (completeOp r q).state.status = Status.error ∧
      (completeOp r q).state.error = some e) := by
  cases r with
  | ok d =>
    refine ⟨⟨_, rfl⟩, fun e he => ?_⟩
    exact absurd he (by simp)
  | error e₀ =>
    refine ⟨⟨_, rfl⟩, fun e he => ?_⟩
    have : e₀ = e := by injection he
    subst this
    simp [completeOp, fetchBody, setState]

theorem fetch_failure_contained_witness :
    (Except.error 5 : Except Nat Nat) = Except.error 5 ∧
    (completeOp (Except.error 5) sampleLoaded).state.error = some 5 :=
  ⟨rfl, ((fetch_failure_contained (Except.error 5) sampleLoaded).2 5 rfl).2⟩

end TQScratch

namespace TQScratch

variable {D E : Type}

/-! ## C4 -/

/-- C4: a `setState` call notifies exactly the currently registered
subscribers, synchronously and in registration order (the notification
sequence is the subscriber list itself, and `subsribe` appends at the end):
a subscriber registered once is notified exactly once per call, a freshly
attached subscriber is notified exactly once, and a subscriber removed by
its unsubscribe capability before the call is notified zero times. -/
theorem setState_broadcast (q : Query D E) (updater : QueryState D E → QueryState D E)
    (o : Nat) :
    (setState updater q).2 = q.subscribers ∧
    (List.count o q.subscribers = 1 → List.count o (setState updater q).2 = 1) ∧
    (o ∉ q.subscribers → List.count o (setState updater (subsribe o q)).2 = 1) ∧
    List.count o (setState updater (unsubscribe o q)).2 = 0 := by
  refine ⟨rfl, fun h => h, fun ho => ?_, ?_⟩
  · show List.count o (q.subscribers ++ [o]) = 1
    rw [List.count_append, List.count_eq_zero.2 ho]
    simp
  · show List.count o (q.subscribers.filter fun s => s != o) = 0
    rw [List.count_eq_zero]
    intro hmem
    have := (List.mem_filter.1 hmem).2
    simp at this

theorem setState_broadcast_witness :
    List.count 1 sampleQuery.subscribers = 1 ∧ (3 : Nat) ∉ sampleQuery.subscribers ∧
    List.count 1 (setState id sampleQuery).2 = 1 ∧
    List.count 3 (setState id (subsribe 3 sampleQuery)).2 = 1 :=
  ⟨by decide, by decide,
    (setState_broadcast sampleQuery id 1).2.1 (by decide),
    (setState_broadcast sampleQuery id 3).2.2.1 (by decide)⟩

end TQScratch

namespace TQScratch

variable {D E : Type}

/-! ## C1 -/

theorem runC_cons (acc : Query D E × Nat × Nat) (ev : Ev D E) (evs : List (Ev D E)) :
    runC acc (ev :: evs) = runC (stepC acc ev) evs := rfl

theorem stepC_fetch_inflight {q : Query D E} (s c : Nat) (h : q.promise = true) :
    stepC (q, s, c) Ev.fetch = (q, s, c) := by
  simp [stepC, fetchCall_of_inflight h]

theorem runC_fetch_inflight {q : Query D E} (s c m : Nat) (h : q.promise = true) :
    runC (q, s, c) (List.replicate m Ev.fetch) = (q, s, c) := by
  induction m with
  | zero => rfl
  | succ m ih => rw [List.replicate_succ, runC_cons, stepC_fetch_inflight s c h, ih]

/-- The relation the dedup guard maintains between the promise slot, the
number of operations started and the number completed. -/
def FlightInv (acc : Query D E × Nat × Nat) : Prop :=
  (acc.1.promise = true ∧ acc.2.1 = acc.2.2 + 1) ∨
  (acc.1.promise = false ∧ acc.2.1 = acc.2.2)

theorem stepC_flight {acc : Query D E × Nat × Nat} (ev : Ev D E)
    (h : FlightInv acc) : FlightInv (stepC acc ev) := by
  obtain ⟨q, s, c⟩ := acc
  cases ev with
  | fetch =>
    cases hq : q.promise with
    | true =>
      rw [show stepC (q, s, c) Ev.fetch = (q, s, c) from stepC_fetch_inflight s c hq]
      exact h
    | false =>
      obtain ⟨h2, hp, _⟩ := fetchCall_of_idle hq
      have hs : s = c := by
        rcases h with ⟨hq', _⟩ | ⟨_, hsc⟩
        · rw [hq] at hq'; cases hq'
        · exact hsc
      simp only [stepC, h2, if_true]
      refine Or.inl ⟨hp, ?_⟩
      show s + 1 = c + 1
      omega
  | complete r =>
    cases hq : q.promise with
    | true =>
      have hs : s = c + 1 := by
        rcases h with ⟨_, hsc⟩ | ⟨hq', _⟩
        · exact hsc
        · rw [hq] at hq'; cases hq'
      simp only [stepC, hq, if_true]
      exact Or.inr ⟨completeOp_promise r q, hs⟩
    | false =>
      simp only [stepC, hq, if_false]
      exact h
  | subscribe o => exact h
  | unsubscribe o => exact h

theorem runC_flight {acc : Query D E × Nat × Nat} (evs : List (Ev D E))
    (h : FlightInv acc) : FlightInv (runC acc evs) := by
  induction evs generalizing acc with
  | nil => exact h
  | cons ev evs ih => exact ih (stepC_flight ev h)

/-- C1: dedup.  For a freshly created query, any number `n ≥ 1` of calls to
`fetch()` before the in-flight operation resolves invokes `queryFn` exactly
once; along every event trace the number of operations started never exceeds
the number completed plus one (at most one operation in flight at any time);
and a `fetch()` call that overlaps an in-flight operation leaves the query —
in particular its `promise` handle, which `fetch()` hands back to the caller
— unchanged and starts nothing. -/
theorem fetch_dedup (key : List JSValue) (fnId : Nat) (q₀ : Query D E)
    (h₀ : createQuery D E key fnId = some q₀) (n : Nat) (hn : 1 ≤ n) :
    (runC (q₀, 0, 0) (List.replicate n Ev.fetch)).2.1 = 1 ∧
    (∀ evs, (runC (q₀, 0, 0) evs).2.1 ≤ (runC (q₀, 0, 0) evs).2.2 + 1) ∧
    (∀ q : Query D E, q.promise = true → fetchCall q = (q, false)) := by
  obtain ⟨hp, -, -, -, -, -⟩ := createQuery_eq_some h₀
  refine ⟨?_, fun evs => ?_, fun q hq => fetchCall_of_inflight hq⟩
  · obtain ⟨m, rfl⟩ : ∃ m, n = m + 1 := ⟨n - 1, (Nat.succ_pred_eq_of_pos hn).symm⟩
    obtain ⟨h2, hp1, -⟩ := fetchCall_of_idle hp
    rw [List.replicate_succ, runC_cons]
    have hstep : stepC (q₀, 0, 0) Ev.fetch = ((fetchCall q₀).1, 1, 0) := by
      simp [stepC, h2]
    rw [hstep, runC_fetch_inflight 1 0 m hp1]
  · have := runC_flight evs (Or.inr ⟨hp, rfl⟩ : FlightInv (q₀, (0 : Nat), (0 : Nat)))
    rcases this with ⟨-, hsc⟩ | ⟨-, hsc⟩ <;> omega

/-- The query record `createQuery` builds for the empty key. -/
def freshQuery : Query Nat Nat :=
  { queryKey := [], queryHash := "[]", fnId := 0, promise := false,
    state := initialState Nat Nat, subscribers := [] }

theorem fetch_dedup_witness :
    createQuery Nat Nat [] 0 = some freshQuery ∧ 1 ≤ 3 ∧
    (runC (freshQuery, 0, 0) (List.replicate 3 Ev.fetch)).2.1 = 1 :=
  ⟨rfl, by decide, (fetch_dedup [] 0 freshQuery rfl 3 (by decide)).1⟩

end TQScratch

namespace TQScratch

variable {D E : Type}

/-! ## C3 -/

/-- The per-state invariant the code actually maintains: `success` implies
`data` present; `error` implies the error value present unless a refetch in
progress has cleared it (in which case `isFetching` is true). -/
def stateInv (st : QueryState D E) : Prop :=
  (st.status = Status.success → st.data.isSome = true) ∧
  (st.status = Status.error → st.error.isSome = true ∨ st.isFetching = true)

theorem stepQ_stateInv (q : Query D E) (ev : Ev D E) (h : stateInv q.state) :
    stateInv (stepQ q ev).state := by
  cases ev with
  | fetch =>
    cases hp : q.promise with
    | true => rw [show stepQ q Ev.fetch = q by simp [stepQ, fetchCall_of_inflight hp]]; exact h
    | false =>
      have : (stepQ q Ev.fetch).state = { q.state with isFetching := true, error := none } := by
        simp [stepQ, fetchCall, hp, setState]
      rw [this]
      exact ⟨fun hs => h.1 hs, fun _ => Or.inr rfl⟩
  | complete r =>
    cases hp : q.promise with
    | false => rw [show stepQ q (Ev.complete r) = q by simp [stepQ, hp]]; exact h
    | true =>
      cases r with
      | ok d =>
        have hst : (stepQ q (Ev.complete (Except.ok d))).state =
            { q.state with status := Status.success, data := some d, isFetching := false } := by
          simp [stepQ, hp, completeOp, fetchBody, setState]
        rw [hst]
        exact ⟨fun _ => rfl, fun hs => Status.noConfusion hs⟩
      | error e =>
        have hst : (stepQ q (Ev.complete (Except.error e))).state =
            { q.state with status := Status.error, error := some e, isFetching := false } := by
          simp [stepQ, hp, completeOp, fetchBody, setState]
        rw [hst]
        exact ⟨fun hs => Status.noConfusion hs, fun _ => Or.inl rfl⟩
  | subscribe o => exact h
  | unsubscribe o => exact h

theorem run_stateInv (evs : List (Ev D E)) (q : Query D E) (h : stateInv q.state) :
    stateInv (run q evs).state := by
  induction evs generalizing q with
  | nil => exact h
  | cons ev evs ih => exact ih (stepQ q ev) (stepQ_stateInv q ev h)

/-- C3 fails as stated on the code: after a failed fetch, a second `fetch()`
call runs the start updater `{...old, isFetching: true, error: undefined}`
(`query.tsx:114`), which clears `error` while `status` is still `"error"` —
a reachable, observable state (the start broadcast and any `getResult()`
read between the start and completion of the refetch see it) with
`status = error` but no error set. -/
theorem state_invariant_counterexample :
    createQuery Nat Nat [] 0 = some freshQuery ∧
    (run freshQuery [Ev.fetch, Ev.complete (Except.error 5), Ev.fetch]).state.status
      = Status.error ∧
    (run freshQuery [Ev.fetch, Ev.complete (Except.error 5), Ev.fetch]).state.error
      = none :=
  ⟨rfl, rfl, rfl⟩

/-- C3 (amended): in every reachable state of a query — including the states
observable between the start and completion of a fetch or refetch —
`status = success` implies `data` is set, and `status = error` implies
`error` is set or a fetch is in progress (`isFetching = true`; the start of
a refetch clears `error` while `status` remains `error` until the refetch
completes). -/
theorem state_invariant_reachable (key : List JSValue) (fnId : Nat) (q₀ : Query D E)
    (h₀ : createQuery D E key fnId = some q₀) (evs : List (Ev D E)) :
    ((run q₀ evs).state.status = Status.success → (run q₀ evs).state.data.isSome = true) ∧
    ((run q₀ evs).state.status = Status.error →
      (run q₀ evs).state.error.isSome = true ∨ (run q₀ evs).state.isFetching = true) := by
  obtain ⟨-, hst, -, -, -, -⟩ := createQuery_eq_some h₀
  have h0 : stateInv q₀.state := by
    rw [hst]
    exact ⟨fun hs => Status.noConfusion hs, fun hs => Status.noConfusion hs⟩
  exact run_stateInv evs q₀ h0

theorem state_invariant_reachable_witness :
    createQuery Nat Nat [] 0 = some freshQuery ∧
    ((run freshQuery [Ev.fetch, Ev.complete (Except.ok 7)]).state.status = Status.success →
      (run freshQuery [Ev.fetch, Ev.complete (Except.ok 7)]).state.data.isSome = true) :=
  ⟨rfl, (state_invariant_reachable [] 0 freshQuery rfl
    [Ev.fetch, Ev.complete (Except.ok 7)]).1⟩

end TQScratch

namespace TQScratch

variable {D E : Type}

/-! ## Registry lemmas -/

theorem getQuery_hash_none {c : QueryClient D E} {o : QueryOptions}
    (hs : stringifyKey o.queryKey = none) : getQuery D E c o = none := by
  unfold getQuery
  rw [hs]

theorem getQuery_hash_found {c : QueryClient D E} {o : QueryOptions} {h : String}
    {q : Query D E} (hs : stringifyKey o.queryKey = some h)
    (hf : c.queries.find? (fun d => d.queryHash == h) = some q) :
    getQuery D E c o = some (q, c) := by
  simp only [getQuery, hs, hf]

theorem getQuery_hash_miss {c : QueryClient D E} {o : QueryOptions} {h : String}
    (hs : stringifyKey o.queryKey = some h)
    (hf : c.queries.find? (fun d => d.queryHash == h) = none) :
    getQuery D E c o =
      some (⟨o.queryKey, h, o.fnId, false, initialState D E, []⟩,
        ⟨c.queries ++ [⟨o.queryKey, h, o.fnId, false, initialState D E, []⟩]⟩) := by
  simp only [getQuery, createQuery, hs, hf]

/-! ## C2 -/

/-- C2: a second `getQuery` with a structurally equal key returns the very
entry the first call returned, and leaves the registry unchanged: no entry
holding the second call's fetch function is ever created or stored (and
`getQuery` itself never invokes a fetch function), so the second call's
fetch function is never invoked. -/
theorem getQuery_identity_stable (c : QueryClient D E) (o₁ o₂ : QueryOptions)
    (hk : o₂.queryKey = o₁.queryKey) (q : Query D E) (c' : QueryClient D E)
    (h₁ : getQuery D E c o₁ = some (q, c')) :
    getQuery D E c' o₂ = some (q, c') := by
  cases hs : stringifyKey o₁.queryKey with
  | none => rw [getQuery_hash_none hs] at h₁; exact absurd h₁ (by simp)
  | some h =>
    have hs₂ : stringifyKey o₂.queryKey = some h := by rw [hk]; exact hs
    cases hf : c.queries.find? (fun d => d.queryHash == h) with
    | some q₁ =>
      rw [getQuery_hash_found hs hf] at h₁
      simp only [Option.some.injEq, Prod.mk.injEq] at h₁
      obtain ⟨rfl, rfl⟩ := h₁
      exact getQuery_hash_found hs₂ hf
    | none =>
      rw [getQuery_hash_miss hs hf] at h₁
      simp only [Option.some.injEq, Prod.mk.injEq] at h₁
      obtain ⟨rfl, rfl⟩ := h₁
      refine getQuery_hash_found hs₂ ?_
      rw [List.find?_append, hf, Option.none_or, List.find?_singleton]
      simp

/-- The entry and registry produced by resolving `["c", 1]` (Scenario D). -/
def entryC1 : Query Nat Nat :=
  { queryKey := [JSValue.str "c", JSValue.num 1], queryHash := "[\"c\",1]", fnId := 1,
    promise := false, state := initialState Nat Nat, subscribers := [] }

/-- The registry holding exactly `entryC1`. -/
def clientC1 : QueryClient Nat Nat := { queries := [entryC1] }

theorem getQuery_identity_stable_witness :
    getQuery Nat Nat { queries := [] }
        { queryKey := [JSValue.str "c", JSValue.num 1], fnId := 1 }
      = some (entryC1, clientC1) ∧
    getQuery Nat Nat clientC1
        { queryKey := [JSValue.str "c", JSValue.num 1], fnId := 2 }
      = some (entryC1, clientC1) :=
  ⟨rfl, getQuery_identity_stable { queries := [] }
    { queryKey := [JSValue.str "c", JSValue.num 1], fnId := 1 }
    { queryKey := [JSValue.str "c", JSValue.num 1], fnId := 2 }
    rfl entryC1 clientC1 rfl⟩

/-! ## C7 -/

/-- C7: `getQuery` fails exactly when `JSON.stringify` fails on the key: on
a non-serializable key the failure is synchronous and happens before any
entry is created or stored (the registry is left untouched and nothing is
returned), and on any serializable key `getQuery` always succeeds — there
is no other failure mode. -/
theorem getQuery_failure_modes (c : QueryClient D E) (o : QueryOptions) :
    (stringifyKey o.queryKey = none → getQuery D E c o = none) ∧
    (∀ h, stringifyKey o.queryKey = some h →
      ∃ q c', getQuery D E c o = some (q, c')) := by
  refine ⟨fun hs => getQuery_hash_none hs, fun h hs => ?_⟩
  cases hf : c.queries.find? (fun d => d.queryHash == h) with
  | some q => exact ⟨q, c, getQuery_hash_found hs hf⟩
  | none => exact ⟨_, _, getQuery_hash_miss hs hf⟩

theorem getQuery_failure_modes_witness :
    stringifyKey [JSValue.bigint 1] = none ∧
    getQuery Nat Nat { queries := [] } { queryKey := [JSValue.bigint 1], fnId := 0 }
      = none ∧
    (∃ q c', getQuery Nat Nat { queries := [] } { queryKey := [JSValue.null], fnId := 0 }
      = some (q, c')) :=
  ⟨rfl, (getQuery_failure_modes _ _).1 rfl, (getQuery_failure_modes _ _).2 "[null]" rfl⟩

/-! ## C10 -/

/-- The entry created for the key `[null]`. -/
def entryNull : Query Nat Nat :=
  { queryKey := [JSValue.null], queryHash := "[null]", fnId := 1, promise := false,
    state := initialState Nat Nat, subscribers := [] }

/-- The registry holding exactly `entryNull`. -/
def clientNull : QueryClient Nat Nat := { queries := [entryNull] }

/-- C10: structurally distinct keys can share one entry, because the lookup
identity is `JSON.stringify` of the key: `[null]` and `[undefined]` are
distinct keys with the same serialization `"[null]"`, so resolving the
second returns the entry created for the first, and the second key's fetch
function (id 2) is never stored — the shared entry keeps fetch function
id 1. -/
theorem hash_collision_shares_entry :
    [JSValue.null] ≠ [JSValue.undefined] ∧
    stringifyKey [JSValue.null] = stringifyKey [JSValue.undefined] ∧
    getQuery Nat Nat { queries := [] } { queryKey := [JSValue.null], fnId := 1 }
      = some (entryNull, clientNull) ∧
    getQuery Nat Nat clientNull { queryKey := [JSValue.undefined], fnId := 2 }
      = some (entryNull, clientNull) ∧
    entryNull.fnId = 1 := by
  refine ⟨?_, rfl, rfl, rfl, rfl⟩
  intro hcontra
  injection hcontra with h1 h2
  exact JSValue.noConfusion h1

end TQScratch
